import Mathlib

/-!
Verification of `bctl/common.py`: the bootstrap / runtime-support layer of a
display-brightness control daemon.  We shallowly embed the module's
configuration loading, persisted-state handling, external-command running and
task supervision, and prove the specified properties about the embedding.

Python values that can appear in the JSON-backed configuration and state are
modelled by `PyVal`.  Python float literals in the module all carry at most
one decimal digit, so floats are represented exactly as the value scaled by
ten.
-/

set_option maxHeartbeats 1000000

namespace Bctl

/-- Model of the Python/JSON values handled by the module: `None`, booleans,
integers, floats (scaled by ten, exact for every literal in the source),
strings, lists and string-keyed dicts (association lists, in insertion
order, as Python dicts preserve insertion order). -/
inductive PyVal where
  | none : PyVal
  | bool : Bool → PyVal
  | int : Int → PyVal
  | float : Int → PyVal
  | str : String → PyVal
  | list : List PyVal → PyVal
  | dict : List (String × PyVal) → PyVal
  deriving Repr

/-- Python `d[k]` read on a dict: the value of the first binding of `k`. -/
def alookup : List (String × PyVal) → String → Option PyVal
  | [], _ => Option.none
  | (k, v) :: rest, key => if k = key then some v else alookup rest key

/-- Python `d[k] = v` on a dict: update the existing binding in place
(keeping its position), or append a new binding. -/
def aset : List (String × PyVal) → String → PyVal → List (String × PyVal)
  | [], key, v => [(key, v)]
  | (k, w) :: rest, key, v =>
      if k = key then (k, v) :: rest else (k, w) :: aset rest key v

mutual
/-- Modelled from the spec: the deep merge performed by the third-party
`py_.merge(conf, override)` call in `load_config` (common.py line 125); the
library's implementation is not part of the sources.  Spec §4.1 merge rule:
if both values are mappings, merge recursively (union of keys, override wins
on conflicts, unmatched default keys survive); if both are ordered sequences,
merge element-by-element by position (override element at index i deep-merges
onto default element at index i, override indices beyond the default's length
are appended, default elements beyond the override's length are kept);
otherwise the override value replaces the default value wholesale. -/
def merge : PyVal → PyVal → PyVal
  | .dict d, .dict o => .dict (mergeDicts d o)
  | .list d, .list o => .list (mergeLists d o)
  | _, o => o
termination_by _d o => sizeOf o
decreasing_by all_goals simp_wf

/-- Merge an override dict `o` into a default dict `d`, key by key in the
override's order. -/
def mergeDicts (d : List (String × PyVal)) : List (String × PyVal) → List (String × PyVal)
  | [] => d
  | (k, v) :: rest =>
      let newv := match alookup d k with
        | some dv => merge dv v
        | Option.none => v
      mergeDicts (aset d k newv) rest
termination_by o => sizeOf o
decreasing_by all_goals (simp_wf <;> omega)

/-- Merge an override list into a default list element-by-element by
position. -/
def mergeLists : List PyVal → List PyVal → List PyVal
  | ds, [] => ds
  | [], o :: os => o :: mergeLists [] os
  | d :: ds, o :: os => merge d o :: mergeLists ds os
termination_by _d o => sizeOf o
decreasing_by all_goals (simp_wf <;> omega)
end

/-- The exceptions the embedded code can raise. -/
inductive PyErr where
  | keyError (key : String)
  | attributeError (msg : String)
  | typeError (msg : String)
  | runtimeError (msg : String)
  deriving Repr, DecidableEq

/-- Constant `STATE_VER = 1`: bumped whenever the persisted state data structure
changes. -/
def STATE_VER : Int := 1

/-- Constant `TIME_DIFF_DELTA_THRESHOLD_S = 60`: the staleness window in seconds. -/
def TIME_DIFF_DELTA_THRESHOLD_S : Int := 60

/-- Embedding of `_conf_path()`: `os.environ.get('XDG_CONFIG_DIR',
f'\x7bos.environ["HOME"]\x7d/.config') + '/bctl/config.json'`, over an
explicit environment.  Python evaluates the default argument of `.get`
eagerly, so `os.environ["HOME"]` is looked up — raising `KeyError` when HOME
is absent — even when `XDG_CONFIG_DIR` is set. -/
def _conf_path (env : String → Option String) : Except PyErr String :=
  match env "HOME" with
  | Option.none => .error (.keyError "HOME")
  | some home =>
      let xdg_dir := (env "XDG_CONFIG_DIR").getD (home ++ "/.config")
      .ok (xdg_dir ++ "/bctl/config.json")

/-- The hard-coded default configuration mapping built at the top of
`load_config` (common.py lines 86–123), key for key and value for value. -/
def default_conf_kvs : List (String × PyVal) := [
  ("log_lvl", .str "INFO"),
  ("ddcutil_bus_path_prefix", .str "/dev/i2c-"),
  ("ddcutil_brightness_feature", .str "10"),
  ("ddcutil_svcp_flags", .list [.str "--skip-ddc-checks"]),
  ("ddcutil_gvcp_flags", .list []),
  ("monitor_udev", .bool true),
  ("periodic_init_sec", .int 0),
  ("sync_brightness", .bool false),
  ("notify", .dict [
    ("enabled", .bool true),
    ("on_fatal_err", .bool true),
    ("err_icon", .str "gtk-dialog-error"),
    ("icon_root", .str ""),
    ("brightness_full", .str "notification-display-brightness-full.svg"),
    ("brightness_high", .str "notification-display-brightness-high.svg"),
    ("brightness_medium", .str "notification-display-brightness-medium.svg"),
    ("brightness_low", .str "notification-display-brightness-low.svg"),
    ("brightness_off", .str "notification-display-brightness-off.svg"),
    ("timeout_ms", .int 4000)]),
  ("udev_event_debounce_sec", .float 30),
  ("msg_consumption_window_sec", .float 1),
  ("brightness_step", .int 5),
  ("ignored_displays", .list []),
  ("ignore_internal_display", .bool false),
  ("ignore_external_display", .bool false),
  ("main_display_ctl", .str "DDCUTIL"),
  ("internal_display_ctl", .str "RAW"),
  ("raw_device_dir", .str "/sys/class/backlight"),
  ("fatal_exit_code", .int 100),
  ("socket_path", .str "/tmp/.bctld-ipc.sock"),
  ("sim", .none),
  ("state_f_path", .str "/tmp/.bctld.state"),
  ("state", .none)]

/-- The observable content of a file, for the module's readers: missing /
unreadable, readable but not valid JSON, or parsed JSON data. -/
inductive FileContents where
  | unreadable
  | unparsable
  | parsed (v : PyVal)
  deriving Repr

/-- Embedding of `_read_dict_from_file(file_loc)`: `\x7b\x7d` when the path is not a
readable file or `open`/`json.load` raises; otherwise whatever JSON value
the file holds (the `dict` return annotation is not enforced at runtime, so
a non-dict JSON document is returned as is). -/
def _read_dict_from_file : FileContents → PyVal
  | .unreadable => .dict []
  | .unparsable => .dict []
  | .parsed v => v

/-- Sentinel state record `EMPTY_STATE`. -/
def EMPTY_STATE : PyVal :=
  .dict [("timestamp", .int 0), ("ver", .int (-1)), ("last_set_brightness", .int (-1))]

/-- Python `s.get(k, default)`: raises `AttributeError` unless `s` is a
dict. -/
def py_get_default (s : PyVal) (k : String) (d : PyVal) : Except PyErr PyVal :=
  match s with
  | .dict kvs => .ok ((alookup kvs k).getD d)
  | _ => .error (.attributeError "get")

/-- Python `s.get(k)` (default `None`). -/
def py_get (s : PyVal) (k : String) : Except PyErr PyVal :=
  py_get_default s k .none

/-- The numeric value of a Python number scaled by ten (`bool` counts as an
int in Python's numeric tower); `none` for non-numbers. -/
def py_num10 : PyVal → Option Int
  | .int n => some (n * 10)
  | .bool b => some (if b then 10 else 0)
  | .float f => some f
  | _ => Option.none

/-- Embedding of `unix_time_now() - t <= TIME_DIFF_DELTA_THRESHOLD_S` (common.py line
139, left conjunct), with `now` the current unix time: raises `TypeError`
unless the `timestamp` value read from the file is a number. -/
def py_time_check (now : Int) (t : PyVal) : Except PyErr Bool :=
  match py_num10 t with
  | some t10 => .ok (decide (now * 10 - t10 ≤ TIME_DIFF_DELTA_THRESHOLD_S * 10))
  | Option.none => .error (.typeError "unsupported operand type for -")

/-- Python `v == STATE_VER` (equality across Python's numeric tower; an
equality test never raises). -/
def py_eq_int (v : PyVal) (n : Int) : Bool :=
  match v with
  | .int m => m = n
  | .bool b => (if b then (1 : Int) else 0) = n
  | .float f => f = n * 10
  | _ => false

/-- Embedding of `_load_state(file_loc)` with the file's contents and the current unix
time made explicit.  Reads the file, fetches `timestamp` (default 0) and
`ver` (default −1) with `dict.get`, and returns the parsed record itself
when it is fresh and version-matching, else a copy of `EMPTY_STATE`.  The
`.get` calls raise `AttributeError` when the file parsed to a non-dict, and
the freshness subtraction raises `TypeError` on a non-numeric timestamp. -/
def _load_state (file : FileContents) (now : Int) : Except PyErr PyVal := do
  let s := _read_dict_from_file file
  let t ← py_get_default s "timestamp" (.int 0)
  let v ← py_get_default s "ver" (.int (-1))
  let fresh ← py_time_check now t
  if fresh && py_eq_int v STATE_VER then pure s else pure EMPTY_STATE

/-- Embedding of `load_config(load_state)` with the environment, the file system (the
contents found at each path value) and the current unix time made explicit.
Builds the default mapping, deep-merges the optional override file at
`_conf_path()` into it, and when `load_state` is set stores the record
loaded from the configured `state_f_path` under the `state` key. -/
def load_config (load_state : Bool) (env : String → Option String)
    (fs : PyVal → FileContents) (now : Int) : Except PyErr PyVal := do
  let path ← _conf_path env
  let conf := merge (.dict default_conf_kvs) (_read_dict_from_file (fs (.str path)))
  if load_state then
    match conf with
    | .dict kvs =>
        match alookup kvs "state_f_path" with
        | some p => do
            let st ← _load_state (fs p) now
            pure (.dict (aset kvs "state" st))
        | Option.none => .error (.keyError "state_f_path")
    | _ => .error (.typeError "conf is not subscriptable")
  else
    pure conf

/-- Embedding of `write_state(conf)` with the current unix time made explicit, modelling
the construction of the record that is then serialized and written
(common.py lines 145–149): `timestamp = now`, `ver = STATE_VER`,
`last_set_brightness = conf.get('state').get('last_set_brightness')`.
`conf.get('state')` yields `None` when state was never loaded, and `.get` on
`None` raises `AttributeError` — before anything is written to disk, since
the record is built ahead of the `try` block that opens the file.  On
success the returned dict is the value written to the configured path
(fields listed in the sorted key order of `json.dumps(..., sort_keys=True)`;
the JSON round trip is the identity on these values). -/
def write_state (conf : PyVal) (now : Int) : Except PyErr PyVal := do
  let st ← py_get conf "state"
  let lsb ← py_get st "last_set_brightness"
  pure (.dict [("last_set_brightness", lsb), ("timestamp", .int now),
               ("ver", .int STATE_VER)])

/-- Spec §3 validity rule, stated from the spec's words: a persisted state
record is valid exactly when `now − timestamp ≤ 60` seconds and `ver` equals
the current schema version constant (false when the timestamp entry is not
numeric). -/
def state_record_valid (now : Int) (kvs : List (String × PyVal)) : Bool :=
  match py_num10 ((alookup kvs "timestamp").getD (.int 0)) with
  | some t10 =>
      decide (now * 10 - t10 ≤ TIME_DIFF_DELTA_THRESHOLD_S * 10) &&
        py_eq_int ((alookup kvs "ver").getD (.int (-1))) STATE_VER
  | Option.none => false

/-- Python `str.split()` with no argument: split on runs of whitespace,
discarding empty tokens. -/
def py_split (s : String) : List String :=
  (s.split Char.isWhitespace).filter (· ≠ "")

/-- Outcome of a completed subprocess: captured stdout and stderr (already
decoded) and the exit status. -/
structure ProcResult where
  stdout : String
  stderr : String
  returncode : Int
  deriving Repr, DecidableEq

/-- Embedding of `run_cmd(cmd, throw_on_err, logger)` (the identifier `runCmd` stands in
for the source's name, which Lean reserves) with process execution abstracted
by `spawn`, which maps the final argument vector to the completed process's
captured result (`proc.communicate()` waits for full completion).  A string
command is whitespace-split into the argument vector first.  After
completion, a non-zero exit status is logged when a logger was supplied
(which does not affect the outcome) and raises `RuntimeError` when
`throw_on_err` is set; in every other case the (stdout, stderr, returncode)
triple is returned. -/
def runCmd (cmd : List String ⊕ String) (throw_on_err : Bool)
    (spawn : List String → ProcResult) : Except PyErr (String × String × Int) :=
  let args := match cmd with
    | .inl l => l
    | .inr s => py_split s
  let proc := spawn args
  if proc.returncode ≠ 0 ∧ throw_on_err then
    .error (.runtimeError "returned w/ non-zero status")
  else
    .ok (proc.stdout, proc.stderr, proc.returncode)

/-- The argument vector `runCmd` passes to the subprocess spawn. -/
def runCmdArgs : List String ⊕ String → List String
  | .inl l => l
  | .inr s => py_split s

/-- Result of one supervised task, were it to run to completion. -/
inductive TaskRes where
  | ok
  | exc (e : Nat)
  deriving Repr, DecidableEq

/-- A supervised, already-scheduled task: the time (in seconds from the
start of the wait) at which it completes — `none` for a task that never
finishes on its own — and its result upon completion. -/
structure TaskSpec where
  compl : Option Nat
  res : TaskRes
  deriving Repr, DecidableEq

/-- The 5-second cap passed as `timeout=5` to `asyncio.wait`. -/
def WAIT_TIMEOUT : Nat := 5

/-- Whether a task has finished by time `t`. -/
def finishedBy (s : TaskSpec) (t : Nat) : Bool :=
  match s.compl with
  | some c => c ≤ t
  | Option.none => false

/-- Completion times of the tasks that complete with an exception. -/
def failTimes (ts : List TaskSpec) : List Nat :=
  ts.filterMap fun s =>
    match s.compl, s.res with
    | some t, .exc _ => some t
    | _, _ => Option.none

/-- The time at which every task has completed, if they all do. -/
def allDoneTime : List TaskSpec → Option Nat
  | [] => some 0
  | s :: rest =>
      match s.compl, allDoneTime rest with
      | some c, some m => some (max c m)
      | _, _ => Option.none

/-- The time at which `asyncio.wait(futures, timeout=5,
return_when=asyncio.FIRST_EXCEPTION)` returns: the first moment at which
some task has completed with an exception, or all tasks have completed, or
the 5-second timeout has elapsed — whichever comes first. -/
def waitEnd (ts : List TaskSpec) : Nat :=
  min WAIT_TIMEOUT
    (min ((failTimes ts).foldr min WAIT_TIMEOUT) ((allDoneTime ts).getD WAIT_TIMEOUT))

/-- What the supervisor call does to its caller in the end. -/
inductive SupResult where
  | ok
  | raised (e : Nat)
  | cancelledError
  deriving Repr, DecidableEq

/-- Observable outcome of one supervision call: which input tasks received a
`cancel()` request (listed parallel to the input), and what the call did. -/
structure SupOutcome where
  cancelRequested : List Bool
  result : SupResult
  deriving Repr, DecidableEq

/-- The exception of the first task in `done` — the tasks finished by time
`T` — that completed with an exception, if any (the iteration order over
`asyncio.wait`'s `done` set is arbitrary; the model iterates in input
order). -/
def firstExc (ts : List TaskSpec) (T : Nat) : Option Nat :=
  match ts with
  | [] => Option.none
  | s :: rest =>
      if finishedBy s T then
        match s.res with
        | .exc e => some e
        | .ok => firstExc rest T
      else firstExc rest T

/-- Embedding of `wait_and_reraise(futures)` over the task model (for the nonempty task
collections `asyncio.wait` accepts).  `supCancelled` says whether the
supervisor's own task is cancelled during the wait, making `asyncio.wait`
raise `CancelledError`: in that case `tasks_to_cancel` is reassigned to
`futures` itself, so the `finally` block issues `cancel()` to every input
task and the `CancelledError` propagates.  Otherwise the wait returns at
`waitEnd`: `done` holds the tasks finished by then, the `finally` block
issues `cancel()` to exactly the pending ones, and then the first exception
found among the done tasks is re-raised — if none, the call returns
normally. -/
def wait_and_reraise (ts : List TaskSpec) (supCancelled : Bool) : SupOutcome :=
  if supCancelled then
    { cancelRequested := ts.map fun _ => true, result := .cancelledError }
  else
    { cancelRequested := ts.map fun s => !finishedBy s (waitEnd ts),
      result := match firstExc ts (waitEnd ts) with
        | some e => .raised e
        | Option.none => .ok }

/-! ## General lemmas about the embedded operations -/

theorem alookup_aset (d : List (String × PyVal)) (k k' : String) (v : PyVal) :
    alookup (aset d k v) k' = if k = k' then some v else alookup d k' := by
  induction d with
  | nil => simp [aset, alookup]
  | cons hd tl ih =>
      obtain ⟨k₁, v₁⟩ := hd
      by_cases h₁ : k₁ = k
      · subst h₁
        by_cases h₂ : k₁ = k'
        · subst h₂; simp [aset, alookup]
        · simp [aset, alookup, h₂]
      · by_cases h₂ : k₁ = k'
        · subst h₂
          have hne : ¬(k = k₁) := fun hh => h₁ hh.symm
          simp [aset, alookup, h₁, hne]
        · simp [aset, alookup, h₁, h₂, ih]

theorem alookup_eq_none_of_not_mem (l : List (String × PyVal)) (k : String)
    (h : k ∉ l.map Prod.fst) : alookup l k = Option.none := by
  induction l with
  | nil => rfl
  | cons hd tl ih =>
      obtain ⟨k₁, v₁⟩ := hd
      simp only [List.map_cons, List.mem_cons] at h
      push_neg at h
      have hne : ¬(k₁ = k) := fun hh => h.1 hh.symm
      simp [alookup, hne, ih h.2]

theorem mergeDicts_nil (d : List (String × PyVal)) : mergeDicts d [] = d := by
  simp [mergeDicts]

theorem mergeDicts_cons (d : List (String × PyVal)) (k : String) (v : PyVal)
    (rest : List (String × PyVal)) :
    mergeDicts d ((k, v) :: rest) =
      mergeDicts (aset d k (match alookup d k with
        | some dv => merge dv v
        | Option.none => v)) rest := by
  simp [mergeDicts]

theorem mergeDicts_lookup_of_override_absent (o d : List (String × PyVal)) (k : String)
    (h : alookup o k = Option.none) :
    alookup (mergeDicts d o) k = alookup d k := by
  induction o generalizing d with
  | nil => simp [mergeDicts_nil]
  | cons hd rest ih =>
      obtain ⟨k₁, v₁⟩ := hd
      have hne : k₁ ≠ k := by
        intro hh; subst hh; simp [alookup] at h
      have hrest : alookup rest k = Option.none := by
        simpa [alookup, hne] using h
      rw [mergeDicts_cons, ih _ hrest, alookup_aset]
      simp [hne]

theorem mergeDicts_lookup_isSome (o d : List (String × PyVal)) (k : String)
    (h : (alookup d k).isSome) :
    (alookup (mergeDicts d o) k).isSome := by
  induction o generalizing d with
  | nil => simpa [mergeDicts_nil] using h
  | cons hd rest ih =>
      obtain ⟨k₁, v₁⟩ := hd
      rw [mergeDicts_cons]
      apply ih
      rw [alookup_aset]
      by_cases hk : k₁ = k <;> simp [hk, h]

theorem mergeDicts_lookup_of_override (o d : List (String × PyVal)) (k : String)
    (v : PyVal) (h : alookup o k = some v) (hnodup : (o.map Prod.fst).Nodup) :
    alookup (mergeDicts d o) k =
      some (match alookup d k with
        | some dv => merge dv v
        | Option.none => v) := by
  induction o generalizing d with
  | nil => simp [alookup] at h
  | cons hd rest ih =>
      obtain ⟨k₁, v₁⟩ := hd
      simp only [List.map_cons, List.nodup_cons] at hnodup
      by_cases hk : k₁ = k
      · subst hk
        have hv : v₁ = v := by simpa [alookup] using h
        subst hv
        have hrest : alookup rest k₁ = Option.none :=
          alookup_eq_none_of_not_mem _ _ hnodup.1
        rw [mergeDicts_cons, mergeDicts_lookup_of_override_absent _ _ _ hrest,
          alookup_aset]
        simp
      · have hrest : alookup rest k = some v := by
          simpa [alookup, hk] using h
        rw [mergeDicts_cons, ih _ hrest hnodup.2, alookup_aset]
        simp [hk]

/-- A Python value that is neither a mapping nor an ordered sequence. -/
def isLeaf : PyVal → Bool
  | .dict _ => false
  | .list _ => false
  | _ => true

theorem merge_leaf_right (d v : PyVal) (h : isLeaf v = true) : merge d v = v := by
  cases d <;> cases v <;> simp_all [merge, isLeaf]

theorem merge_list_list (ds os : List PyVal) :
    merge (.list ds) (.list os) = .list (mergeLists ds os) := by
  simp [merge]

theorem merge_dict_dict (d o : List (String × PyVal)) :
    merge (.dict d) (.dict o) = .dict (mergeDicts d o) := by
  simp [merge]

theorem mergeLists_getElem? (ds os : List PyVal) (i : Nat) :
    (mergeLists ds os)[i]? =
      match ds[i]?, os[i]? with
      | some d, some o => some (merge d o)
      | some d, Option.none => some d
      | Option.none, some o => some o
      | Option.none, Option.none => Option.none := by
  induction os generalizing ds i with
  | nil =>
      rw [show mergeLists ds [] = ds from by simp [mergeLists]]
      cases h : ds[i]? <;> simp
  | cons o os ih =>
      cases ds with
      | nil =>
          rw [show mergeLists [] (o :: os) = o :: mergeLists [] os from by
            simp [mergeLists]]
          cases i with
          | zero => simp
          | succ j => simpa using ih [] j
      | cons d ds =>
          rw [show mergeLists (d :: ds) (o :: os) = merge d o :: mergeLists ds os from by
            simp [mergeLists]]
          cases i with
          | zero => simp
          | succ j => simpa using ih ds j

/-! ## Lemmas about the task-supervision model -/

theorem foldr_min_le_self (l : List Nat) (b : Nat) : l.foldr min b ≤ b := by
  induction l with
  | nil => simp
  | cons x xs ih => simpa using Nat.le_trans (Nat.min_le_right _ _) ih

theorem foldr_min_le_mem (l : List Nat) (b : Nat) {x : Nat} (h : x ∈ l) :
    l.foldr min b ≤ x := by
  induction l with
  | nil => simp at h
  | cons y ys ih =>
      rcases List.mem_cons.mp h with h | h
      · subst h; simp
      · simpa using Nat.le_trans (Nat.min_le_right _ _) (ih h)

theorem foldr_min_mem_or (l : List Nat) (b : Nat) :
    l.foldr min b = b ∨ l.foldr min b ∈ l := by
  induction l with
  | nil => simp
  | cons x xs ih =>
      simp only [List.foldr_cons, List.mem_cons]
      rcases Nat.le_total x (xs.foldr min b) with h | h
      · rw [Nat.min_eq_left h]; right; left; rfl
      · rw [Nat.min_eq_right h]
        rcases ih with ih | ih
        · left; exact ih
        · right; right; exact ih

theorem mem_failTimes (ts : List TaskSpec) (x : Nat) :
    x ∈ failTimes ts ↔ ∃ s ∈ ts, s.compl = some x ∧ ∃ e, s.res = .exc e := by
  unfold failTimes
  rw [List.mem_filterMap]
  constructor
  · rintro ⟨s, hs, h⟩
    rcases hc : s.compl with _ | c <;> rcases hr : s.res with _ | e <;>
      simp [hc, hr] at h
    exact ⟨s, hs, by rw [hc, h], e, hr⟩
  · rintro ⟨s, hs, hc, e, hr⟩
    exact ⟨s, hs, by rw [hc, hr]⟩

theorem allDoneTime_ge {ts : List TaskSpec} {m : Nat} (h : allDoneTime ts = some m)
    {s : TaskSpec} (hs : s ∈ ts) {c : Nat} (hc : s.compl = some c) : c ≤ m := by
  induction ts generalizing m with
  | nil => simp at hs
  | cons t rest ih =>
      unfold allDoneTime at h
      rcases ht : t.compl with _ | c₁ <;>
        rcases hrest : allDoneTime rest with _ | m₁ <;>
        rw [ht, hrest] at h <;> simp at h
      rcases List.mem_cons.mp hs with hcase | hcase
      · subst hcase
        rw [ht] at hc
        simp only [Option.some.injEq] at hc
        omega
      · have := ih hrest hcase
        omega

theorem waitEnd_le (ts : List TaskSpec) : waitEnd ts ≤ WAIT_TIMEOUT :=
  Nat.min_le_left _ _

theorem firstExc_eq_none_iff (ts : List TaskSpec) (T : Nat) :
    firstExc ts T = Option.none ↔
      ∀ s ∈ ts, finishedBy s T = true → s.res = .ok := by
  induction ts with
  | nil => simp [firstExc]
  | cons s rest ih =>
      unfold firstExc
      rcases hf : finishedBy s T <;> rcases hr : s.res with _ | e <;>
        simp [hf, hr, ih, List.forall_mem_cons]

theorem firstExc_some_spec {ts : List TaskSpec} {T : Nat} {e : Nat}
    (h : firstExc ts T = some e) :
    ∃ s ∈ ts, finishedBy s T = true ∧ s.res = .exc e := by
  induction ts with
  | nil => simp [firstExc] at h
  | cons s rest ih =>
      unfold firstExc at h
      split at h
      next hf =>
        split at h
        next e₁ heq =>
          cases h
          exact ⟨s, List.mem_cons_self _ _, hf, heq⟩
        next heq =>
          obtain ⟨t, ht, h₁, h₂⟩ := ih h
          exact ⟨t, List.mem_cons_of_mem _ ht, h₁, h₂⟩
      next hf =>
        obtain ⟨t, ht, h₁, h₂⟩ := ih h
        exact ⟨t, List.mem_cons_of_mem _ ht, h₁, h₂⟩

theorem exists_finished_failure (ts : List TaskSpec)
    (h : ∃ s ∈ ts, (∃ e, s.res = .exc e) ∧ ∃ t, s.compl = some t ∧ t ≤ WAIT_TIMEOUT) :
    ∃ s' ∈ ts, finishedBy s' (waitEnd ts) = true ∧ ∃ e, s'.res = .exc e := by
  obtain ⟨s, hs, ⟨e, he⟩, t, ht, ht5⟩ := h
  have htmem : t ∈ failTimes ts := (mem_failTimes ts t).mpr ⟨s, hs, ht, e, he⟩
  have hF5 : (failTimes ts).foldr min WAIT_TIMEOUT ≤ WAIT_TIMEOUT :=
    foldr_min_le_self _ _
  have hFt : (failTimes ts).foldr min WAIT_TIMEOUT ≤ t := foldr_min_le_mem _ _ htmem
  have hFmem : (failTimes ts).foldr min WAIT_TIMEOUT ∈ failTimes ts := by
    rcases foldr_min_mem_or (failTimes ts) WAIT_TIMEOUT with hb | hm
    · have : (failTimes ts).foldr min WAIT_TIMEOUT = t :=
        Nat.le_antisymm hFt (by omega)
      rw [this]; exact htmem
    · exact hm
  obtain ⟨s', hs', hc', e', he'⟩ := (mem_failTimes ts _).mp hFmem
  refine ⟨s', hs', ?_, e', he'⟩
  have hT : (failTimes ts).foldr min WAIT_TIMEOUT ≤ waitEnd ts := by
    unfold waitEnd
    rcases hA : allDoneTime ts with _ | m
    · simp only [hA, Option.getD_none]
      omega
    · have := allDoneTime_ge hA hs' hc'
      simp only [hA, Option.getD_some]
      omega
  simp [finishedBy, hc']
  exact hT

/-- Characterization of `runCmd` as one conditional equation: the call fails exactly when the
completed process's exit status is non-zero and `throw_on_err` is set, and
otherwise returns the captured triple. -/
theorem runCmd_eq (cmd : List String ⊕ String) (throw_on_err : Bool)
    (spawn : List String → ProcResult) :
    runCmd cmd throw_on_err spawn =
      if (spawn (runCmdArgs cmd)).returncode ≠ 0 ∧ throw_on_err then
        .error (.runtimeError "returned w/ non-zero status")
      else
        .ok ((spawn (runCmdArgs cmd)).stdout, (spawn (runCmdArgs cmd)).stderr,
          (spawn (runCmdArgs cmd)).returncode) := by
  cases cmd <;> rfl

/-! ## Claims -/

/-- C1: Fail-fast supervision: whenever at least one supervised task
completes with a failure within the wait cap while others are still
unfinished, `wait_and_reraise` finishes within the 5-second wait cap,
issues a cancellation request to every task that has not yet finished, and
re-raises exactly one of the failures (of a task that finished within the
wait) to its caller. -/
theorem wait_and_reraise_fail_fast (ts : List TaskSpec)
    (hfail : ∃ s ∈ ts, (∃ e, s.res = .exc e) ∧ ∃ t, s.compl = some t ∧ t ≤ WAIT_TIMEOUT)
    (_hpend : ∃ s ∈ ts, finishedBy s (waitEnd ts) = false) :
    waitEnd ts ≤ WAIT_TIMEOUT ∧
    (∀ i : Fin ts.length, finishedBy (ts.get i) (waitEnd ts) = false →
        (wait_and_reraise ts false).cancelRequested[i.val]? = some true) ∧
    ∃ e, (wait_and_reraise ts false).result = .raised e ∧
      ∃ s ∈ ts, finishedBy s (waitEnd ts) = true ∧ s.res = .exc e := by
  refine ⟨waitEnd_le ts, ?_, ?_⟩
  · intro i hi
    have hmap : (wait_and_reraise ts false).cancelRequested
        = ts.map (fun s => !finishedBy s (waitEnd ts)) := rfl
    rw [hmap, List.getElem?_map, List.getElem?_eq_getElem i.isLt]
    simp only [List.get_eq_getElem] at hi
    simp [hi]
  · obtain ⟨s', hs', hf', e', he'⟩ := exists_finished_failure ts hfail
    rcases hfe : firstExc ts (waitEnd ts) with _ | e
    · exfalso
      have := (firstExc_eq_none_iff ts (waitEnd ts)).mp hfe s' hs' hf'
      rw [he'] at this
      cases this
    · obtain ⟨t, ht, h₁, h₂⟩ := firstExc_some_spec hfe
      refine ⟨e, ?_, t, ht, h₁, h₂⟩
      simp [wait_and_reraise, hfe]

theorem wait_and_reraise_fail_fast_witness :
    waitEnd [⟨some 0, TaskRes.exc 7⟩, ⟨Option.none, TaskRes.ok⟩, ⟨Option.none, TaskRes.ok⟩]
        ≤ WAIT_TIMEOUT ∧
    ∃ e,
      (wait_and_reraise
          [⟨some 0, TaskRes.exc 7⟩, ⟨Option.none, TaskRes.ok⟩, ⟨Option.none, TaskRes.ok⟩]
          false).result = .raised e ∧
      ∃ s ∈ [⟨some 0, TaskRes.exc 7⟩, ⟨Option.none, TaskRes.ok⟩,
          (⟨Option.none, TaskRes.ok⟩ : TaskSpec)],
        finishedBy s
          (waitEnd [⟨some 0, TaskRes.exc 7⟩, ⟨Option.none, TaskRes.ok⟩,
            ⟨Option.none, TaskRes.ok⟩]) = true ∧ s.res = .exc e :=
  (fun h => ⟨h.1, h.2.2⟩)
    (wait_and_reraise_fail_fast _
      ⟨⟨some 0, TaskRes.exc 7⟩, by decide, ⟨7, rfl⟩, 0, rfl, by decide⟩
      ⟨⟨Option.none, TaskRes.ok⟩, by decide, by decide⟩)

/-- C2 (spec-modelled merge): when the deep merge combines two ordered
sequences, the override element at index i deep-merges onto the default
element at index i, override indices beyond the default's length are
appended, default elements beyond the override's length are kept; and
concretely, merging override `["x"]` into default `["a","b"]` under the
same key yields `["x","b"]`. -/
theorem merge_sequences_by_index :
    (∀ ds os : List PyVal, merge (.list ds) (.list os) = .list (mergeLists ds os))
    ∧ (∀ (ds os : List PyVal) (i : Nat) (d o : PyVal),
        ds[i]? = some d → os[i]? = some o →
          (mergeLists ds os)[i]? = some (merge d o))
    ∧ (∀ (ds os : List PyVal) (i : Nat) (o : PyVal),
        ds[i]? = Option.none → os[i]? = some o → (mergeLists ds os)[i]? = some o)
    ∧ (∀ (ds os : List PyVal) (i : Nat) (d : PyVal),
        ds[i]? = some d → os[i]? = Option.none → (mergeLists ds os)[i]? = some d)
    ∧ merge (.dict [("k", .list [.str "a", .str "b"])])
          (.dict [("k", .list [.str "x"])])
        = .dict [("k", .list [.str "x", .str "b"])] := by
  refine ⟨merge_list_list, ?_, ?_, ?_, ?_⟩
  · intro ds os i d o hd ho
    rw [mergeLists_getElem?, hd, ho]
  · intro ds os i o hd ho
    rw [mergeLists_getElem?, hd, ho]
  · intro ds os i d hd ho
    rw [mergeLists_getElem?, hd, ho]
  · simp [merge, mergeDicts, mergeLists, alookup, aset]

theorem merge_sequences_by_index_witness :
    (mergeLists [PyVal.str "a", PyVal.str "b"] [PyVal.str "x"])[0]?
      = some (merge (PyVal.str "a") (PyVal.str "x")) :=
  merge_sequences_by_index.2.1 _ _ 0 _ _ rfl rfl

/-- C3 counterexample: a readable state file that parses as valid JSON which
is not a mapping (here the empty JSON array) makes `_load_state` raise an
`AttributeError` instead of returning the sentinel record, contradicting
the claim that the loader never raises. -/
theorem load_state_raises_on_non_mapping :
    _load_state (.parsed (.list [])) 0 = .error (.attributeError "get") := rfl

/-- C3 (amended): loading persisted state returns the on-disk record
verbatim when the file parses as a mapping satisfying the spec validity
rule (`now − timestamp ≤ 60` and `ver = STATE_VER`), returns the sentinel
`EMPTY_STATE` when the file is unreadable or unparsable or parses as a
mapping failing the rule with a numeric (or absent) timestamp, raises
`TypeError` on a mapping with a non-numeric timestamp, and raises
`AttributeError` when the file parses as a non-mapping. -/
theorem load_state_characterization (file : FileContents) (now : Int) :
    _load_state file now =
      match file with
      | .unreadable => .ok EMPTY_STATE
      | .unparsable => .ok EMPTY_STATE
      | .parsed (.dict kvs) =>
          match py_num10 ((alookup kvs "timestamp").getD (.int 0)) with
          | some _ =>
              .ok (if state_record_valid now kvs then .dict kvs else EMPTY_STATE)
          | Option.none => .error (.typeError "unsupported operand type for -")
      | .parsed _ => .error (.attributeError "get") := by
  cases file with
  | unreadable =>
      have h1 : _load_state .unreadable now
          = if (decide (now * 10 - 0 * 10 ≤ TIME_DIFF_DELTA_THRESHOLD_S * 10)
              && py_eq_int (.int (-1)) STATE_VER)
            then .ok (.dict []) else .ok EMPTY_STATE := rfl
      rw [h1]
      simp [py_eq_int, STATE_VER]
  | unparsable =>
      have h1 : _load_state .unparsable now
          = if (decide (now * 10 - 0 * 10 ≤ TIME_DIFF_DELTA_THRESHOLD_S * 10)
              && py_eq_int (.int (-1)) STATE_VER)
            then .ok (.dict []) else .ok EMPTY_STATE := rfl
      rw [h1]
      simp [py_eq_int, STATE_VER]
  | parsed v =>
      cases v with
      | dict kvs =>
          have h0 : _load_state (.parsed (.dict kvs)) now
              = (py_time_check now ((alookup kvs "timestamp").getD (.int 0))).bind
                  (fun fresh =>
                    if fresh && py_eq_int ((alookup kvs "ver").getD (.int (-1))) STATE_VER
                    then .ok (.dict kvs) else .ok EMPTY_STATE) := rfl
          rcases hnum : py_num10 ((alookup kvs "timestamp").getD (.int 0)) with _ | t10
          · have hh : py_time_check now ((alookup kvs "timestamp").getD (.int 0))
                = .error (.typeError "unsupported operand type for -") := by
              unfold py_time_check
              rw [hnum]
            rw [h0, hh]
            simp only [hnum]
            rfl
          · have hh : py_time_check now ((alookup kvs "timestamp").getD (.int 0))
                = .ok (decide (now * 10 - t10 ≤ TIME_DIFF_DELTA_THRESHOLD_S * 10)) := by
              unfold py_time_check
              rw [hnum]
            have hval : state_record_valid now kvs
                = (decide (now * 10 - t10 ≤ TIME_DIFF_DELTA_THRESHOLD_S * 10)
                    && py_eq_int ((alookup kvs "ver").getD (.int (-1))) STATE_VER) := by
              unfold state_record_valid
              rw [hnum]
            rw [h0, hh]
            have hbind : (Except.ok (decide (now * 10 - t10 ≤ TIME_DIFF_DELTA_THRESHOLD_S * 10))
                  : Except PyErr Bool).bind
                (fun fresh =>
                  if fresh && py_eq_int ((alookup kvs "ver").getD (.int (-1))) STATE_VER
                  then Except.ok (.dict kvs) else Except.ok EMPTY_STATE)
                = if (decide (now * 10 - t10 ≤ TIME_DIFF_DELTA_THRESHOLD_S * 10)
                    && py_eq_int ((alookup kvs "ver").getD (.int (-1))) STATE_VER)
                  then Except.ok (.dict kvs) else Except.ok EMPTY_STATE := rfl
            rw [hbind]
            simp only [hnum, hval]
            cases hc : (decide (now * 10 - t10 ≤ TIME_DIFF_DELTA_THRESHOLD_S * 10)
                && py_eq_int ((alookup kvs "ver").getD (.int (-1))) STATE_VER) <;>
              simp
      | none => rfl
      | bool b => rfl
      | int n => rfl
      | float f => rfl
      | str st => rfl
      | list l => rfl

/-- C4 (code bug): with `XDG_CONFIG_DIR` set and `HOME` absent, computing
the config path raises `KeyError("HOME")` instead of succeeding with a path
under `XDG_CONFIG_DIR`: Python evaluates the fallback default passed to
`environ.get` eagerly, so `HOME` is required unconditionally. -/
theorem conf_path_requires_home_even_with_xdg :
    _conf_path (fun k => if k = "XDG_CONFIG_DIR" then some "/xdg" else Option.none)
      = .error (.keyError "HOME") := rfl

/-- C5 counterexample: with one task finishing successfully at time 1 and
one task that never finishes, the wait times out at the 5-second cap and
`wait_and_reraise` returns normally even though not every supervised task
completed successfully. -/
theorem wait_and_reraise_timeout_returns_normally :
    (wait_and_reraise [⟨some 1, TaskRes.ok⟩, ⟨Option.none, TaskRes.ok⟩] false).result
        = SupResult.ok
    ∧ finishedBy ⟨Option.none, TaskRes.ok⟩
        (waitEnd [⟨some 1, TaskRes.ok⟩, ⟨Option.none, TaskRes.ok⟩]) = false
    ∧ waitEnd [⟨some 1, TaskRes.ok⟩, ⟨Option.none, TaskRes.ok⟩] = WAIT_TIMEOUT := by
  decide

/-- C5 (amended): the call `wait_and_reraise` returns normally iff it was not itself
cancelled and every task that finished within the wait completed
successfully — so no finished task's exception is ever swallowed; when not
cancelled it issues cancellation requests to exactly the tasks still
pending at the end of the wait (in particular, on a timeout with pending
tasks and no failure, it cancels the pending tasks and returns normally,
exactly as if all tasks had finished); when itself cancelled it propagates
the cancellation. -/
theorem wait_and_reraise_no_swallow (ts : List TaskSpec) (sc : Bool) :
    ((wait_and_reraise ts sc).result = .ok ↔
      sc = false ∧ ∀ s ∈ ts, finishedBy s (waitEnd ts) = true → s.res = .ok)
    ∧ (sc = false →
        (wait_and_reraise ts sc).cancelRequested
          = ts.map fun s => !finishedBy s (waitEnd ts))
    ∧ (sc = true → (wait_and_reraise ts sc).result = .cancelledError) := by
  cases sc
  · refine ⟨?_, fun _ => rfl, fun h => absurd h (by decide)⟩
    have hres : (wait_and_reraise ts false).result
        = (match firstExc ts (waitEnd ts) with
            | some e => SupResult.raised e
            | Option.none => SupResult.ok) := rfl
    rw [hres]
    constructor
    · intro h
      refine ⟨rfl, ?_⟩
      rcases hfe : firstExc ts (waitEnd ts) with _ | e
      · exact (firstExc_eq_none_iff ts (waitEnd ts)).mp hfe
      · rw [hfe] at h
        cases h
    · rintro ⟨-, h⟩
      rw [(firstExc_eq_none_iff ts (waitEnd ts)).mpr h]
  · exact ⟨by simp [wait_and_reraise], fun h => absurd h (by decide), fun _ => rfl⟩

theorem wait_and_reraise_no_swallow_witness :
    (wait_and_reraise [⟨some 1, TaskRes.ok⟩] false).result = SupResult.ok :=
  ((wait_and_reraise_no_swallow [⟨some 1, TaskRes.ok⟩] false).1).mpr
    ⟨rfl, by decide⟩

/-- C6: Cancellation outranks failure: if the supervisor is itself cancelled
while waiting, it issues a cancellation request to every input task — not
just the pending subset — and propagates its own cancellation to its caller
rather than any task's application-level failure, whatever the tasks'
results are. -/
theorem wait_and_reraise_cancellation_outranks (ts : List TaskSpec) :
    (wait_and_reraise ts true).cancelRequested = ts.map (fun _ => true)
    ∧ (wait_and_reraise ts true).result = SupResult.cancelledError := by
  simp [wait_and_reraise]

/-- C8: when the spawned process runs to completion with a non-zero exit
status, `run_cmd` raises a generic execution error iff `throw_on_err` is
set, and otherwise returns the (stdout, stderr, status) triple; a zero exit
status always returns the triple without raising. -/
theorem runCmd_nonzero_exit (cmd : List String ⊕ String) (throw_on_err : Bool)
    (spawn : List String → ProcResult) :
    ((spawn (runCmdArgs cmd)).returncode ≠ 0 →
        ((∃ e, runCmd cmd throw_on_err spawn = .error e) ↔ throw_on_err = true)
        ∧ (throw_on_err = false →
            runCmd cmd throw_on_err spawn
              = .ok ((spawn (runCmdArgs cmd)).stdout, (spawn (runCmdArgs cmd)).stderr,
                  (spawn (runCmdArgs cmd)).returncode)))
    ∧ ((spawn (runCmdArgs cmd)).returncode = 0 →
        runCmd cmd throw_on_err spawn
          = .ok ((spawn (runCmdArgs cmd)).stdout, (spawn (runCmdArgs cmd)).stderr,
              (spawn (runCmdArgs cmd)).returncode)) := by
  constructor
  · intro hrc
    cases throw_on_err
    · rw [runCmd_eq]
      simp [hrc]
    · rw [runCmd_eq]
      simp [hrc]
  · intro hrc
    rw [runCmd_eq]
    simp [hrc]

theorem runCmd_nonzero_exit_witness :
    ∃ e, runCmd (Sum.inl ["false"]) true (fun _ => ⟨"", "", 1⟩) = .error e :=
  ((runCmd_nonzero_exit (Sum.inl ["false"]) true (fun _ => ⟨"", "", 1⟩)).1
      (by decide)).1.mpr rfl

/-- Evaluation of `load_config` without state loading, as one equation: the default
mapping deep-merged with whatever the override file at the computed config
path holds. -/
theorem load_config_no_state (env : String → Option String) (fs : PyVal → FileContents)
    (t : Int) (P : String) (hP : _conf_path env = .ok P) :
    load_config false env fs t
      = .ok (merge (.dict default_conf_kvs) (_read_dict_from_file (fs (.str P)))) := by
  have h0 : load_config false env fs t
      = (_conf_path env).bind (fun path =>
          Except.ok (merge (.dict default_conf_kvs)
            (_read_dict_from_file (fs (.str path))))) := rfl
  rw [h0, hP]
  rfl

/-- C7 (spec-modelled merge): for every override mapping, the configuration
produced by `load_config` has a value for every key present in the
defaults, even when the key is absent from the override; every leaf key of
the override takes the override's value; and every key absent from the
override keeps its default value. -/
theorem load_config_merge_precedence (env : String → Option String)
    (fs : PyVal → FileContents) (t : Int) (P : String)
    (okvs : List (String × PyVal))
    (hP : _conf_path env = .ok P)
    (hfile : fs (.str P) = .parsed (.dict okvs))
    (hnodup : (okvs.map Prod.fst).Nodup) :
    ∃ ckvs, load_config false env fs t = .ok (.dict ckvs)
      ∧ (∀ k, (alookup default_conf_kvs k).isSome → (alookup ckvs k).isSome)
      ∧ (∀ k v, alookup okvs k = some v → isLeaf v = true → alookup ckvs k = some v)
      ∧ (∀ k, alookup okvs k = Option.none →
          alookup ckvs k = alookup default_conf_kvs k) := by
  refine ⟨mergeDicts default_conf_kvs okvs, ?_, ?_, ?_, ?_⟩
  · rw [load_config_no_state env fs t P hP, hfile]
    rw [show _read_dict_from_file (FileContents.parsed (PyVal.dict okvs))
        = PyVal.dict okvs from rfl]
    rw [merge_dict_dict]
  · intro k hk
    exact mergeDicts_lookup_isSome okvs default_conf_kvs k hk
  · intro k v hov hleaf
    rw [mergeDicts_lookup_of_override okvs default_conf_kvs k v hov hnodup]
    cases hd : alookup default_conf_kvs k
    · simp
    · simp [merge_leaf_right _ _ hleaf]
  · intro k hnone
    exact mergeDicts_lookup_of_override_absent okvs default_conf_kvs k hnone

theorem load_config_merge_precedence_witness :
    ∃ ckvs, load_config false (fun _ => some "/h")
        (fun _ => FileContents.parsed (.dict [("log_lvl", PyVal.str "DEBUG")])) 0
        = Except.ok (.dict ckvs)
      ∧ alookup ckvs "log_lvl" = some (PyVal.str "DEBUG")
      ∧ alookup ckvs "brightness_step" = some (PyVal.int 5) := by
  obtain ⟨ckvs, hok, hinv, hboth, honly⟩ :=
    load_config_merge_precedence (fun _ => some "/h")
      (fun _ => FileContents.parsed (.dict [("log_lvl", PyVal.str "DEBUG")])) 0
      ("/h" ++ "/bctl/config.json") [("log_lvl", PyVal.str "DEBUG")] rfl rfl (by simp)
  exact ⟨ckvs, hok, hboth "log_lvl" _ rfl rfl,
    (honly "brightness_step" rfl).trans rfl⟩

/-- C9: State round-trip: writing the state record of a configuration whose
`state` field is a loaded record, then reading it back within the staleness
window, accepts the record and yields the same `last_set_brightness`
value. -/
theorem write_state_roundtrip (ckvs skvs : List (String × PyVal)) (now later : Int)
    (hstate : alookup ckvs "state" = some (.dict skvs))
    (hwin : later - now ≤ TIME_DIFF_DELTA_THRESHOLD_S) :
    ∃ rkvs, write_state (.dict ckvs) now = .ok (.dict rkvs)
      ∧ _load_state (.parsed (.dict rkvs)) later = .ok (.dict rkvs)
      ∧ alookup rkvs "last_set_brightness"
          = some ((alookup skvs "last_set_brightness").getD .none) := by
  refine ⟨[("last_set_brightness", (alookup skvs "last_set_brightness").getD .none),
      ("timestamp", .int now), ("ver", .int STATE_VER)], ?_, ?_, ?_⟩
  · have h1 : write_state (.dict ckvs) now
        = (py_get (.dict ckvs) "state").bind (fun st =>
            (py_get st "last_set_brightness").bind (fun lsb =>
              Except.ok (.dict [("last_set_brightness", lsb), ("timestamp", .int now),
                ("ver", .int STATE_VER)]))) := rfl
    have h2 : py_get (PyVal.dict ckvs) "state"
        = Except.ok ((alookup ckvs "state").getD PyVal.none) := rfl
    rw [h1, h2, hstate]
    rfl
  · have hcond : (decide (later * 10 - now * 10 ≤ TIME_DIFF_DELTA_THRESHOLD_S * 10)
        && py_eq_int (.int STATE_VER) STATE_VER) = true := by
      rw [Bool.and_eq_true]
      refine ⟨?_, rfl⟩
      rw [decide_eq_true_eq]
      simp only [TIME_DIFF_DELTA_THRESHOLD_S] at hwin ⊢
      omega
    have hload : _load_state
        (.parsed (.dict [("last_set_brightness",
            (alookup skvs "last_set_brightness").getD .none),
          ("timestamp", .int now), ("ver", .int STATE_VER)])) later
        = if (decide (later * 10 - now * 10 ≤ TIME_DIFF_DELTA_THRESHOLD_S * 10)
            && py_eq_int (.int STATE_VER) STATE_VER)
          then Except.ok (.dict [("last_set_brightness",
              (alookup skvs "last_set_brightness").getD .none),
            ("timestamp", .int now), ("ver", .int STATE_VER)])
          else Except.ok EMPTY_STATE := rfl
    rw [hload, hcond]
    rfl
  · rfl

theorem write_state_roundtrip_witness :
    ∃ rkvs, write_state (.dict [("state", .dict [("last_set_brightness", PyVal.int 42)])]) 1000
        = .ok (.dict rkvs)
      ∧ _load_state (.parsed (.dict rkvs)) 1050 = .ok (.dict rkvs)
      ∧ alookup rkvs "last_set_brightness" = some (PyVal.int 42) :=
  write_state_roundtrip [("state", .dict [("last_set_brightness", PyVal.int 42)])]
    [("last_set_brightness", PyVal.int 42)] 1000 1050 rfl (by decide)

/-- C10: calling `write_state` on a configuration produced by `load_config`
with `load_state = false` (here: with no readable override file, so `state`
keeps its default `None`) raises an `AttributeError` while building the
record, before anything is written. -/
theorem write_state_requires_loaded_state (env : String → Option String)
    (fs : PyVal → FileContents) (t now : Int) (c : PyVal) (P : String)
    (hP : _conf_path env = .ok P)
    (hfs : fs (.str P) = .unreadable)
    (hc : load_config false env fs t = .ok c) :
    write_state c now = .error (.attributeError "get") := by
  have h1 : load_config false env fs t = .ok (.dict default_conf_kvs) := by
    rw [load_config_no_state env fs t P hP, hfs]
    rw [show _read_dict_from_file FileContents.unreadable = PyVal.dict [] from rfl]
    rw [merge_dict_dict, mergeDicts_nil]
  injection hc.symm.trans h1 with h3
  subst h3
  rfl

theorem write_state_requires_loaded_state_witness :
    write_state (.dict default_conf_kvs) 100 = .error (.attributeError "get") :=
  write_state_requires_loaded_state (fun _ => some "/h") (fun _ => .unreadable) 0 100
    (.dict default_conf_kvs) ("/h" ++ "/bctl/config.json") rfl rfl
    (by rw [load_config_no_state (fun _ => some "/h") (fun _ => FileContents.unreadable)
          0 ("/h" ++ "/bctl/config.json") rfl]
        rw [show _read_dict_from_file FileContents.unreadable = PyVal.dict [] from rfl]
        rw [merge_dict_dict, mergeDicts_nil])

end Bctl

